import Mathlib

/-!
# Verification of the schema-adaptive query-construction subsystem

A shallow embedding of the core of `src/app.py` (a Flask service over two
SQL tables): the column resolver (`_norm`, `_col_index`, `_find_col`), the
authorization scope builders (`_installbase_scope_where`, `_wsr_scope_where`),
the token search builder (`_build_token_search_where`), the suggestion
endpoints, and the WSR write endpoint (`api_wsr`).

Python strings are modelled as Lean `String`; `str.strip` / `str.lower` /
`str.upper` / `str.split()` / `in` (substring) are given explicit list-level
definitions below.  The database is an external collaborator: schema
snapshots are passed in as `List String` and row-store lookups as explicit
result lists.
-/

set_option linter.unusedVariables false

namespace ServiceTeam

/-! ## Python string primitives -/

/-- Model of Python `needle` being a prefix of a character list. -/
def listPrefix : List Char → List Char → Bool
  | [], _ => true
  | _ :: _, [] => false
  | a :: as, b :: bs => a = b && listPrefix as bs

/-- Model of Python `needle in hay` (contiguous substring test) on char lists. -/
def listSubseg (needle : List Char) : List Char → Bool
  | [] => listPrefix needle []
  | c :: t => listPrefix needle (c :: t) || listSubseg needle t

/-- Python `needle in hay` for strings. -/
def strContains (hay needle : String) : Bool :=
  listSubseg needle.data hay.data

/-- Drop trailing characters satisfying `p` (right-hand analogue of `dropWhile`). -/
def dropEndWhile (p : Char → Bool) : List Char → List Char
  | [] => []
  | c :: cs =>
    let r := dropEndWhile p cs
    if r = [] && p c then [] else c :: r

/-- Python `str.strip()` on the underlying character list. -/
def stripChars (l : List Char) : List Char :=
  dropEndWhile Char.isWhitespace (l.dropWhile Char.isWhitespace)

/-- Python `str.strip()`. -/
def strip (s : String) : String := ⟨stripChars s.data⟩

/-- Python `str.lower()`. -/
def lowerStr (s : String) : String := ⟨s.data.map Char.toLower⟩

/-- Python `str.upper()`. -/
def upperStr (s : String) : String := ⟨s.data.map Char.toUpper⟩

/-- Python `sep.join(parts)`. -/
def joinSep (sep : String) : List String → String
  | [] => ""
  | [x] => x
  | x :: y :: xs => x ++ sep ++ joinSep sep (y :: xs)

/-- Helper for `pySplit`: split on whitespace, dropping empty pieces
(`acc` holds the current word reversed). -/
def splitWsAux : List Char → List Char → List (List Char)
  | [], acc => if acc = [] then [] else [acc.reverse]
  | c :: cs, acc =>
    if c.isWhitespace then
      if acc = [] then splitWsAux cs [] else acc.reverse :: splitWsAux cs []
    else splitWsAux cs (c :: acc)

/-- Python `str.split()` (no argument: split on whitespace runs, no empties). -/
def pySplit (s : String) : List String :=
  (splitWsAux s.data []).map fun l => ⟨l⟩

/-! ## Column resolver (`app.py` lines 64-87) -/

/-- Python `ch.isalnum()` (a Unicode category test). Modelled exactly at
every code point this development reasons about: the ASCII range, the
dotted capital I U+0130 (a letter, hence alphanumeric) and the combining
dot above U+0307 (a nonspacing mark, hence not alphanumeric) — the pair
under which Python's `str.lower` breaks `_norm`'s closure; all quantified
theorems below restrict themselves to this modelled domain. -/
def pyIsAlnum (c : Char) : Bool :=
  if c.toNat = 304 then true
  else if c.toNat = 775 then false
  else c.isAlphanum

/-- Python `ch.lower()`, which under full Unicode case mapping may expand
one character to several. Modelled exactly on the ASCII range and at
U+0130, whose lowercase is `"i"` followed by the combining dot above
U+0307 (Unicode SpecialCasing); characters outside the modelled domain
keep `Char.toLower`'s behaviour and are not relied on by any theorem. -/
def pyLowerChar (c : Char) : List Char :=
  if c.toNat = 304 then [Char.ofNat 105, Char.ofNat 775]
  else [c.toLower]

/-- `_norm` (app.py line 64):
`"".join(ch.lower() for ch in str(s) if ch.isalnum())` — keep alphanumeric
characters, lowercase each (possibly into several characters), join. -/
def _norm (s : String) : String :=
  ⟨((s.data.filter pyIsAlnum).map pyLowerChar).flatten⟩

/-- `_col_index` (app.py line 68): the dict `{_norm(c): c for c in cols}`,
modelled by its lookup function; a later column overwrites an earlier one
with the same normalized key, exactly as repeated dict assignment does. -/
def _col_index (cols : List String) : String → Option String :=
  cols.foldl (fun idx c => fun k => if k = _norm c then some c else idx k)
    (fun _ => none)

/-- `_find_col` (app.py line 72): exact alias match through `_col_index`
first (aliases in caller priority order), then the fuzzy must-contain scan
over the schema columns in original order. -/
def _find_col (cols : List String) (aliases : List String)
    (must_contain : List String) : Option String :=
  let idx := _col_index cols
  match aliases.findSome? (fun a => idx (_norm a)) with
  | some c => some c
  | none =>
    if must_contain = [] then none
    else
      let tokens := (must_contain.filter (fun t => t ≠ "")).map _norm
      cols.find? (fun c => tokens.all (fun t => strContains (_norm c) t))

/-! ## Scope predicate builders (`app.py` lines 90-129 and 210-271) -/

/-- `_qcol` (app.py line 90). -/
def _qcol (c : String) : String := "[" ++ c ++ "]"

/-- `_cmp_ci_trim` (app.py line 126): case-insensitive trim compare expression
(the apostrophes of the SQL text are written `\x27`). -/
def _cmp_ci_trim (colname : String) : String :=
  let c := "CAST(" ++ _qcol colname ++ " AS NVARCHAR(200))"
  "UPPER(LTRIM(RTRIM(REPLACE(REPLACE(" ++ c ++ ", CHAR(160), \x27 \x27), CHAR(9), \x27\x27))))"

/-- `_is_manager_like` (app.py line 210). -/
def _is_manager_like (role : String) : Bool :=
  let r := lowerStr (strip role)
  strContains r "manager" || strContains r "team leader" || strContains r "teamleader"
    || strContains r "team_leader"

/-- The caller identity read from the session (keys `role`, `zone`, `engineer`);
missing session keys are the empty string, as in `session.get(k) or ""`. -/
structure Principal where
  role : String
  zone : String
  engineer : String

/-- `_installbase_scope_where` (app.py line 216).  For a manager-like role only
the zone test is emitted; for an ordinary user only the service-engineer test
is emitted (the session values are read through `strip`). -/
def _installbase_scope_where (p : Principal) (install_cols : List String) :
    String × List String :=
  let role := lowerStr (strip p.role)
  let zone := strip p.zone
  let eng := strip p.engineer
  if role = "admin" then ("", [])
  else
    let zone_col := _find_col install_cols ["ZONE"] ["zone"]
    let svc_col := _find_col install_cols
      ["SERVICE_ENGR", "SERVICE ENGR", "SERVICE_ENGINEER", "SERVICE ENGINEER"]
      ["service", "engr"]
    if _is_manager_like role then
      let wp : List String × List String :=
        match zone_col with
        | some zc => if zone ≠ "" then ([_cmp_ci_trim zc ++ " = UPPER(?)"], [zone]) else ([], [])
        | none => ([], [])
      ((if wp.1 = [] then "" else " WHERE " ++ joinSep " AND " wp.1), wp.2)
    else
      let wp : List String × List String :=
        match svc_col with
        | some sc => if eng ≠ "" then ([_cmp_ci_trim sc ++ " = UPPER(?)"], [eng]) else ([], [])
        | none => ([], [])
      ((if wp.1 = [] then "" else " WHERE " ++ joinSep " AND " wp.1), wp.2)

/-- `_wsr_scope_where` (app.py line 249): zone test for every non-admin,
engineer test only for non-manager-like roles, in that order. -/
def _wsr_scope_where (p : Principal) (wsr_cols : List String) : String × List String :=
  let role := lowerStr (strip p.role)
  let zone := strip p.zone
  let eng := strip p.engineer
  if role = "admin" then ("", [])
  else
    let zone_col := _find_col wsr_cols ["Zone", "ZONE"] ["zone"]
    let eng_col := _find_col wsr_cols ["EngineerName", "Engineer Name", "ENGINEER_NAME"]
      ["engineer", "name"]
    let w1 : List String × List String :=
      match zone_col with
      | some zc => if zone ≠ "" then ([_cmp_ci_trim zc ++ " = UPPER(?)"], [zone]) else ([], [])
      | none => ([], [])
    let w2 : List String × List String :=
      match eng_col with
      | some ec =>
        if _is_manager_like role = false ∧ eng ≠ "" then
          ([_cmp_ci_trim ec ++ " = UPPER(?)"], [eng])
        else ([], [])
      | none => ([], [])
    let wp := (w1.1 ++ w2.1, w1.2 ++ w2.2)
    ((if wp.1 = [] then "" else " WHERE " ++ joinSep " AND " wp.1), wp.2)

/-! ## Token search predicate builder (`app.py` lines 275-303) -/

/-- The token list of `_build_token_search_where`:
`[t.strip() for t in q.strip().split() if t.strip()]`. -/
def searchTokens (q : String) : List String :=
  ((pySplit (strip q)).filter fun t => strip t ≠ "").map strip

/-- The searched column set: preferred columns that resolve by normalized-key
equality, in the given order, else the first 30 schema columns. -/
def searchCols (cols preferred_cols : List String) : List String :=
  let actual := preferred_cols.foldl (fun acc pc =>
    match _col_index cols (_norm pc) with
    | some c => acc ++ [c]
    | none => acc) []
  if actual = [] then cols.take 30 else actual

/-- One `LIKE` test of the token search (app.py line 299). -/
def likeExpr (c : String) : String :=
  "CAST(" ++ _qcol c ++ " AS NVARCHAR(MAX)) LIKE ?"

/-- `_build_token_search_where` (app.py line 275), with the same
accumulator loops as the source. -/
def _build_token_search_where (q : String) (cols preferred_cols : List String) :
    String × List String :=
  let q1 := strip q
  if q1 = "" then ("", [])
  else
    let tokens := searchTokens q
    if tokens = [] then ("", [])
    else
      let actual_search_cols := searchCols cols preferred_cols
      let pp := tokens.foldl (fun (acc : List String × List String) tok =>
        let ors := actual_search_cols.foldl
          (fun (o : List String × List String) c =>
            (o.1 ++ [likeExpr c], o.2 ++ ["%" ++ tok ++ "%"])) ([], [])
        (acc.1 ++ ["(" ++ joinSep " OR " ors.1 ++ ")"], acc.2 ++ ors.2)) ([], [])
      ("(" ++ joinSep " AND " pp.1 ++ ")", pp.2)

/-- The disjunction a single token contributes (one substring test per
searched column). -/
def tokenClause (cs : List String) : String :=
  "(" ++ joinSep " OR " (cs.map likeExpr) ++ ")"

/-- The parameters a single token contributes (one `%tok%` per searched
column). -/
def tokenParams (cs : List String) (tok : String) : List String :=
  cs.map fun _ => "%" ++ tok ++ "%"

/-! ## Suggestion endpoints (`app.py` lines 403-472, 476-523, 729-796)

`fetch c` stands for the row store's `SELECT DISTINCT TOP 10 CAST([c] …) …
ORDER BY v` result for column `c` (already scope- and LIKE-filtered,
alphabetically ordered).  Endpoint models return the suggestion list paired
with the number of storage lookups issued (the schema-snapshot fetch plus
one per executed distinct-value query). -/

/-- The inner merge loop shared verbatim by the two suggest endpoints
(app.py lines 454-464 and 778-788): strip each value, skip blanks, dedup
case-insensitively through `seen`, stop once 12 items are collected. -/
def mergeColVals : List String → List String → List String → List String × List String
  | seen, items, [] => (seen, items)
  | seen, items, v :: vs =>
    let vv := strip v
    if vv = "" then mergeColVals seen items vs
    else
      let k := lowerStr vv
      if seen.contains k then mergeColVals seen items vs
      else
        let items2 := items ++ [vv]
        if 12 ≤ items2.length then (k :: seen, items2)
        else mergeColVals (k :: seen) items2 vs

/-- The per-column loop of the suggest endpoints: one distinct-value lookup
per resolved key column, merged in priority order, stopping at 12. -/
def suggestLoop (fetch : String → List String) :
    List String → List String → Nat → List String → List String × Nat
  | _, items, ops, [] => (items, ops)
  | seen, items, ops, col :: rest =>
    let sv := mergeColVals seen items (fetch col)
    if 12 ≤ sv.2.length then (sv.2, ops + 1)
    else suggestLoop fetch sv.1 sv.2 (ops + 1) rest

/-- The key columns of `api_master_installbase_suggest` (app.py lines
418-428), in merge priority order. -/
def master_suggest_key_cols (cols : List String) : List String :=
  let zone_col := _find_col cols ["ZONE", "Zone"] ["zone"]
  let svc_col := _find_col cols ["SERVICE_ENGR", "SERVICE ENGR"] ["service", "engr"]
  let cust_col := _find_col cols ["CUSTOMER_NAME", "CUSTOMER NAME", "CustomerName", "Customer Name"]
    ["customer", "name"]
  let serial_col := _find_col cols ["Serial No.", "Serial No", "Serial_No", "SERIAL NO", "SerialNo"]
    ["serial"]
  let cluster_col := _find_col cols ["Cluster_No", "CLUSTER NO", "Cluster No"] ["cluster"]
  let loc_col := _find_col cols ["LOCATION", "Location"] ["location"]
  [cust_col, serial_col, loc_col, svc_col, zone_col, cluster_col].filterMap id

/-- `api_master_installbase_suggest` (app.py line 403). -/
def api_master_installbase_suggest (q : String) (cols : List String)
    (fetch : String → List String) : List String × Nat :=
  let q1 := strip q
  if q1.length < 2 then ([], 0)
  else if cols = [] then ([], 1)
  else suggestLoop fetch [] [] 1 (master_suggest_key_cols cols)

/-- The key columns of `api_report_suggest` (app.py lines 744-749). -/
def report_suggest_key_cols (cols : List String) : List String :=
  let zone_col := _find_col cols ["Zone", "ZONE"] ["zone"]
  let eng_col := _find_col cols ["EngineerName", "Engineer Name"] ["engineer", "name"]
  let cust_col := _find_col cols ["CustomerName", "Customer Name"] ["customer", "name"]
  let month_col := _find_col cols ["MonthYear", "Month Year", "MMM-YY", "MMM_YY", "MMM YY"]
    ["month"]
  [month_col, cust_col, eng_col, zone_col].filterMap id

/-- `api_report_suggest` (app.py line 729). -/
def api_report_suggest (q : String) (cols : List String)
    (fetch : String → List String) : List String × Nat :=
  let q1 := strip q
  if q1.length < 2 then ([], 0)
  else if cols = [] then ([], 1)
  else suggestLoop fetch [] [] 1 (report_suggest_key_cols cols)

/-- `api_installbase_customer_suggest` (app.py line 476): no minimum-length
gate; the schema is always fetched, and when the customer column resolves a
distinct-value query runs whatever `q` is (`q` only shapes the LIKE filter
inside `fetch`). -/
def api_installbase_customer_suggest (q : String) (cols : List String)
    (fetch : String → List String) : List String × Nat :=
  if cols = [] then ([], 1)
  else
    match _find_col cols ["CUSTOMER_NAME", "CUSTOMER NAME", "CustomerName", "Customer Name"]
        ["customer", "name"] with
    | none => ([], 1)
    | some cust_col =>
      (((fetch cust_col).map fun r => strip r).filter fun x => x ≠ "", 2)

/-! ## The WSR write endpoint (`app.py` lines 960-1139)

`api_wsr` resolves a fixed logical-field → column mapping, coerces date and
time fields, and emits one parameterized INSERT; the database is modelled
as a list of rows (column name paired with the inserted cell).  A logged-in
session is assumed (the 401 path carries no query construction). -/

/-- `_parse_date` helper: all characters are ASCII digits. -/
def allDigits (l : List Char) : Bool := l.all Char.isDigit

/-- Numeric value of a digit run. -/
def digitsToNat (l : List Char) : Nat := l.foldl (fun n c => n * 10 + (c.toNat - 48)) 0

/-- Gregorian leap year (as `datetime.date` validates it). -/
def isLeap (y : Nat) : Bool := (y % 4 == 0 && y % 100 != 0) || y % 400 == 0

def daysInMonth (y m : Nat) : Nat :=
  if m = 2 then (if isLeap y then 29 else 28)
  else if m = 4 ∨ m = 6 ∨ m = 9 ∨ m = 11 then 30 else 31

/-- The range checks `datetime.date` performs on a parsed (y, m, d). -/
def validDate (y m d : Nat) : Bool :=
  decide (1 ≤ y ∧ y ≤ 9999 ∧ 1 ≤ m ∧ m ≤ 12 ∧ 1 ≤ d ∧ d ≤ daysInMonth y m)

/-- `strptime`'s `%b`: case-insensitive English month abbreviation. -/
def monthAbbrev (s : String) : Option Nat :=
  match lowerStr s with
  | "jan" => some 1 | "feb" => some 2 | "mar" => some 3 | "apr" => some 4
  | "may" => some 5 | "jun" => some 6 | "jul" => some 7 | "aug" => some 8
  | "sep" => some 9 | "oct" => some 10 | "nov" => some 11 | "dec" => some 12
  | _ => none

def splitDashAux : List Char → List Char → List (List Char)
  | [], acc => [acc.reverse]
  | c :: cs, acc =>
    if c = Char.ofNat 45 then acc.reverse :: splitDashAux cs []
    else splitDashAux cs (c :: acc)

/-- Split on the `-` separator every one of the four date formats uses. -/
def splitDash (s : String) : List String := (splitDashAux s.data []).map fun l => ⟨l⟩

/-- `strptime(s, "%Y-%m-%d")`: 4-digit year, 1-2 digit month and day,
calendar-validated. -/
def fmt_Ymd (s : String) : Option (Nat × Nat × Nat) :=
  match splitDash s with
  | [ys, ms, ds] =>
    if ys.data.length = 4 ∧ allDigits ys.data = true
        ∧ 1 ≤ ms.data.length ∧ ms.data.length ≤ 2 ∧ allDigits ms.data = true
        ∧ 1 ≤ ds.data.length ∧ ds.data.length ≤ 2 ∧ allDigits ds.data = true then
      let y := digitsToNat ys.data
      let m := digitsToNat ms.data
      let d := digitsToNat ds.data
      if validDate y m d then some (y, m, d) else none
    else none
  | _ => none

/-- `strptime(s, "%d-%b-%y")`: 2-digit year mapped to 2000+yy for yy ≤ 68,
else 1900+yy (the POSIX pivot Python uses). -/
def fmt_dby2 (s : String) : Option (Nat × Nat × Nat) :=
  match splitDash s with
  | [ds, bs, ys] =>
    match monthAbbrev bs with
    | none => none
    | some m =>
      if 1 ≤ ds.data.length ∧ ds.data.length ≤ 2 ∧ allDigits ds.data = true
          ∧ ys.data.length = 2 ∧ allDigits ys.data = true then
        let d := digitsToNat ds.data
        let yy := digitsToNat ys.data
        let y := if yy ≤ 68 then 2000 + yy else 1900 + yy
        if validDate y m d then some (y, m, d) else none
      else none
  | _ => none

/-- `strptime(s, "%d-%b-%Y")`. -/
def fmt_dbY (s : String) : Option (Nat × Nat × Nat) :=
  match splitDash s with
  | [ds, bs, ys] =>
    match monthAbbrev bs with
    | none => none
    | some m =>
      if 1 ≤ ds.data.length ∧ ds.data.length ≤ 2 ∧ allDigits ds.data = true
          ∧ ys.data.length = 4 ∧ allDigits ys.data = true then
        let d := digitsToNat ds.data
        let y := digitsToNat ys.data
        if validDate y m d then some (y, m, d) else none
      else none
  | _ => none

/-- `strptime(s, "%d-%m-%Y")`. -/
def fmt_dmY (s : String) : Option (Nat × Nat × Nat) :=
  match splitDash s with
  | [ds, ms, ys] =>
    if 1 ≤ ds.data.length ∧ ds.data.length ≤ 2 ∧ allDigits ds.data = true
        ∧ 1 ≤ ms.data.length ∧ ms.data.length ≤ 2 ∧ allDigits ms.data = true
        ∧ ys.data.length = 4 ∧ allDigits ys.data = true then
      let d := digitsToNat ds.data
      let m := digitsToNat ms.data
      let y := digitsToNat ys.data
      if validDate y m d then some (y, m, d) else none
    else none
  | _ => none

/-- `_parse_date` (app.py line 960): strip, treat NA markers as missing,
then try the four formats in order. -/
def _parse_date (v : Option String) : Option (Nat × Nat × Nat) :=
  match v with
  | none => none
  | some v0 =>
    let s := strip v0
    if s = "" ∨ upperStr s ∈ ["NA", "N/A", "NULL", "#VALUE!"] then none
    else
      match fmt_Ymd s with
      | some r => some r
      | none =>
        match fmt_dby2 s with
        | some r => some r
        | none =>
          match fmt_dbY s with
          | some r => some r
          | none => fmt_dmY s

/-- `_parse_time_hhmm` (app.py line 975): keep the first five characters. -/
def _parse_time_hhmm (v : Option String) : Option String :=
  match v with
  | none => none
  | some v0 =>
    let s := strip v0
    if s = "" ∨ upperStr s ∈ ["NA", "N/A", "NULL", "#VALUE!"] then none
    else some ⟨s.data.take 5⟩

namespace WsrWrite

def zone_col (cols : List String) : Option String :=
  _find_col cols ["Zone", "ZONE"] ["zone"]

def eng_col (cols : List String) : Option String :=
  _find_col cols ["EngineerName", "Engineer Name"] ["engineer", "name"]

def month_col (cols : List String) : Option String :=
  _find_col cols ["MonthYear", "MMM-YY", "MMM_YY", "MMM YY"] ["mmm"]

def rep_col (cols : List String) : Option String :=
  _find_col cols ["ServiceReportNo", "Service report No", "Service report No."] ["report"]

def cust_col (cols : List String) : Option String :=
  _find_col cols ["CustomerName", "Customer Name"] ["customer", "name"]

def loc_col (cols : List String) : Option String :=
  _find_col cols ["Location"] ["location"]

def cp_col (cols : List String) : Option String :=
  _find_col cols ["ContactPerson", "Contact Person"] ["contact", "person"]

def des_col (cols : List String) : Option String :=
  _find_col cols ["Designation"] ["designation"]

def cn_col (cols : List String) : Option String :=
  _find_col cols ["ContactNumber", "Contact No", "Contact No."] ["contact", "no"]

def email_col (cols : List String) : Option String :=
  _find_col cols ["Email", "Email Id"] ["email"]

def call_col (cols : List String) : Option String :=
  _find_col cols ["CallLoggedDate", "Call Logged Date"] ["call", "date"]

def prob_col (cols : List String) : Option String :=
  _find_col cols ["ProblemReported", "Problem Reported"] ["problem"]

def ms_col (cols : List String) : Option String :=
  _find_col cols ["MachineStatus", "Machine Status", "Mc Status", "McStatus"] ["status"]

def vc1_col (cols : List String) : Option String :=
  _find_col cols ["VisitCode1", "Visit Code 1"] ["visit", "code", "1"]

def vc2_col (cols : List String) : Option String :=
  _find_col cols ["VisitCode2", "Visit Code 2"] ["visit", "code", "2"]

def ink_col (cols : List String) : Option String :=
  _find_col cols ["InkType", "Ink type"] ["ink"]

def visit_col (cols : List String) : Option String :=
  _find_col cols ["VisitDate", "Visit Date"] ["visit", "date"]

def act_col (cols : List String) : Option String :=
  _find_col cols ["ActionTaken", "Action Taken"] ["action"]

def rem_col (cols : List String) : Option String :=
  _find_col cols ["Remarks", "Remark"] ["remark"]

def model_col (cols : List String) : Option String :=
  _find_col cols ["Printer Model", "PrinterModel", "Model"] ["printer", "model"]

def mcno_col (cols : List String) : Option String :=
  _find_col cols ["M/C No", "MC No", "MCNo", "Machine No", "MachineNo"] ["mc", "no"]

def serial_col (cols : List String) : Option String :=
  _find_col cols ["Serial No", "SerialNo", "Serial_No", "SERIAL NO"] ["serial"]

def turnon_col (cols : List String) : Option String :=
  _find_col cols ["Turn on Time", "TurnOnTime"] ["turn", "time"]

def printon_col (cols : List String) : Option String :=
  _find_col cols ["Print on time", "PrintOnTime"] ["print", "time"]

def tstart_col (cols : List String) : Option String :=
  _find_col cols ["Travel Start (HH:MM)", "TravelStart", "Travel Start"] ["travel", "start"]

def tend_col (cols : List String) : Option String :=
  _find_col cols ["Travel End (HH:MM)", "TravelEnd", "Travel End"] ["travel", "end"]

def ttime_col (cols : List String) : Option String :=
  _find_col cols ["TRAVE TIME", "TRAVEL TIME", "Travel Time", "TravelTime"] ["travel", "time"]

def wstart_col (cols : List String) : Option String :=
  _find_col cols ["Work Start (HH:MM)", "WorkStart", "Work Start"] ["work", "start"]

def wend_col (cols : List String) : Option String :=
  _find_col cols ["Work End (HH:MM)", "WorkEnd", "Work End"] ["work", "end"]

def wtime_col (cols : List String) : Option String :=
  _find_col cols ["WORK TIME", "Work Time", "WorkTime"] ["work", "time"]

def ink_col2 (cols : List String) : Option String :=
  _find_col cols ["INK", "Ink"] ["ink"]

def solvent_col (cols : List String) : Option String :=
  _find_col cols ["Solvent"] ["solvent"]

def cnc_col (cols : List String) : Option String :=
  _find_col cols ["CNC"] ["cnc"]

def filterdue_col (cols : List String) : Option String :=
  _find_col cols ["Filter Kit Due Date/Hrs", "FilterKitDue", "Filter Kit Due"] ["filter", "due"]

def feedback_col (cols : List String) : Option String :=
  _find_col cols ["Customer Feedback", "CustomerFeedback"] ["customer", "feedback"]

def callstatus_col (cols : List String) : Option String :=
  _find_col cols ["Call Status", "CallStatus"] ["call", "status"]

def revisit_col (cols : List String) : Option String :=
  _find_col cols ["Re-visit Required", "Revisit Required", "RevisitRequired"] ["re", "visit"]

def se_rem_col (cols : List String) : Option String :=
  _find_col cols ["Service Engineer Remarks", "ServiceEngineerRemarks"]
    ["service", "engineer", "remarks"]

def sm_rem_col (cols : List String) : Option String :=
  _find_col cols ["Service Manager Remarks", "ServiceManagerRemarks"]
    ["service", "manager", "remarks"]

def created_col (cols : List String) : Option String :=
  _find_col cols ["CreatedAt", "Created At"] ["created"]

/-- The fixed logical-field → physical-column mapping (app.py lines
1044-1091), in source order. -/
def mapping (cols : List String) : List (String × Option String) :=
  [("zone", zone_col cols), ("engineerName", eng_col cols), ("monthYear", month_col cols),
   ("serviceReportNo", rep_col cols), ("customerName", cust_col cols),
   ("location", loc_col cols), ("contactPerson", cp_col cols), ("designation", des_col cols),
   ("contactNumber", cn_col cols), ("email", email_col cols),
   ("callLoggedDate", call_col cols), ("problemReported", prob_col cols),
   ("machineStatus", ms_col cols), ("visitCode1", vc1_col cols), ("visitCode2", vc2_col cols),
   ("inkType", ink_col cols), ("visitDate", visit_col cols), ("actionTaken", act_col cols),
   ("remarks", rem_col cols), ("printerModel", model_col cols), ("mcNo", mcno_col cols),
   ("serialNo", serial_col cols), ("turnOnTime", turnon_col cols),
   ("printOnTime", printon_col cols), ("travelStart", tstart_col cols),
   ("travelEnd", tend_col cols), ("travelTime", ttime_col cols),
   ("workStart", wstart_col cols), ("workEnd", wend_col cols), ("workTime", wtime_col cols),
   ("ink", ink_col2 cols), ("solvent", solvent_col cols), ("cnc", cnc_col cols),
   ("filterKitDue", filterdue_col cols), ("customerFeedback", feedback_col cols),
   ("callStatus", callstatus_col cols), ("revisitRequired", revisit_col cols),
   ("serviceEngineerRemarks", se_rem_col cols), ("serviceManagerRemarks", sm_rem_col cols)]

/-- A bound parameter: a raw payload string, a parsed date, or SQL NULL. -/
inductive PVal where
  | s (v : String)
  | date (y m d : Nat)
  | null
deriving DecidableEq

/-- The per-field value coercion of the insert loop (app.py lines
1108-1116): date columns through `_parse_date`, HH:MM columns through
`_parse_time_hhmm`, everything else bound as given. -/
def coerceVal (cols : List String) (dbcol : String) (val : Option String) : PVal :=
  if call_col cols = some dbcol ∨ visit_col cols = some dbcol then
    match _parse_date val with
    | some (y, m, d) => .date y m d
    | none => .null
  else if turnon_col cols = some dbcol ∨ printon_col cols = some dbcol
      ∨ tstart_col cols = some dbcol ∨ tend_col cols = some dbcol
      ∨ wstart_col cols = some dbcol ∨ wend_col cols = some dbcol then
    match _parse_time_hhmm val with
    | some t => .s t
    | none => .null
  else
    match val with
    | some s => .s s
    | none => .null

/-- The accumulators of the insert-construction loop (app.py lines
1093-1125): column list, placeholder list, parameter list and the
`seen_cols` duplicate guard. -/
structure InsAcc where
  insert_cols : List String
  insert_vals : List String
  params : List PVal
  seen_cols : List String
deriving DecidableEq

/-- The insert construction (app.py lines 1100-1125): one fold over the
mapping with the `seen_cols` guard, then the `CreatedAt` column appended
with the literal `GETUTCDATE()` and no parameter — without consulting
`seen_cols`. -/
def build (cols : List String) (payload : String → Option String) : InsAcc :=
  let acc := (mapping cols).foldl (fun acc kv =>
    match kv.2 with
    | none => acc
    | some dbcol =>
      if acc.seen_cols.contains dbcol then acc
      else
        { insert_cols := acc.insert_cols ++ [_qcol dbcol],
          insert_vals := acc.insert_vals ++ ["?"],
          params := acc.params ++ [coerceVal cols dbcol (payload kv.1)],
          seen_cols := dbcol :: acc.seen_cols }) ⟨[], [], [], []⟩
  match created_col cols with
  | some cc =>
    { acc with insert_cols := acc.insert_cols ++ [_qcol cc],
               insert_vals := acc.insert_vals ++ ["GETUTCDATE()"] }
  | none => acc

/-- The INSERT statement text (app.py line 1130). -/
def insertSQL (cols : List String) (payload : String → Option String) : String :=
  let b := build cols payload
  "INSERT INTO dbo.WSR (" ++ joinSep ", " b.insert_cols ++ ") VALUES ("
    ++ joinSep ", " b.insert_vals ++ ")"

/-- A stored cell: a bound parameter value, or the server-side
`GETUTCDATE()` literal. -/
inductive Cell where
  | val (v : PVal)
  | nowLit
deriving DecidableEq

/-- The row the store materializes from the parameterized INSERT: each `?`
placeholder consumes the next parameter in order. -/
def zipVals : List String → List String → List PVal → List (String × Cell)
  | c :: cs, v :: vs, ps =>
    if v = "?" then
      match ps with
      | p :: ps2 => (c, .val p) :: zipVals cs vs ps2
      | [] => (c, .val .null) :: zipVals cs vs []
    else (c, .nowLit) :: zipVals cs vs ps
  | _, _, _ => []

/-- The endpoint's JSON reply. -/
structure Resp where
  ok : Bool
  message : String
deriving DecidableEq

/-- `api_wsr` (app.py line 984) against a database state: no existence
check, no update path — on success it always appends one freshly built row
and reports the fixed insert message. -/
def api_wsr (cols : List String) (payload : String → Option String)
    (db : List (List (String × Cell))) : List (List (String × Cell)) × Resp :=
  if cols = [] then (db, ⟨false, "dbo.WSR table not found"⟩)
  else
    let b := build cols payload
    if b.insert_cols = [] then (db, ⟨false, "No matching columns found in dbo.WSR"⟩)
    else (db ++ [zipVals b.insert_cols b.insert_vals b.params],
          ⟨true, "WSR saved successfully!"⟩)

end WsrWrite

/-- The example payload used in the WSR witnesses: only the `zone` field. -/
def wsrPayloadEx : String → Option String :=
  fun k => if k = "zone" then some "East" else none


/-! ## C9: `_norm` totality, charset and idempotence

`_norm` is total, but under Python's full Unicode case mapping the
alnum-only and idempotence parts fail: `_norm` of U+0130 is `"i"` plus the
combining dot above U+0307, which is not alphanumeric and is dropped by a
second application. Both properties do hold on the ASCII domain the
application's schemas and aliases live in; that restriction is the amended
claim. -/

theorem uint32_le_toNat (a b : UInt32) : (a ≤ b) ↔ a.toNat ≤ b.toNat := by
  simp [UInt32.le_def, BitVec.le_def, UInt32.toNat]

theorem isUpper_iff (c : Char) :
    c.isUpper = true ↔ 65 ≤ c.val.toNat ∧ c.val.toNat ≤ 90 := by
  simp only [Char.isUpper, Bool.and_eq_true, decide_eq_true_eq, uint32_le_toNat, ge_iff_le]
  norm_num

theorem isLower_iff (c : Char) :
    c.isLower = true ↔ 97 ≤ c.val.toNat ∧ c.val.toNat ≤ 122 := by
  simp only [Char.isLower, Bool.and_eq_true, decide_eq_true_eq, uint32_le_toNat, ge_iff_le]
  norm_num

theorem isDigit_iff (c : Char) :
    c.isDigit = true ↔ 48 ≤ c.val.toNat ∧ c.val.toNat ≤ 57 := by
  simp only [Char.isDigit, Bool.and_eq_true, decide_eq_true_eq, uint32_le_toNat, ge_iff_le]
  norm_num

theorem isAlphanum_iff (c : Char) :
    c.isAlphanum = true ↔ (65 ≤ c.val.toNat ∧ c.val.toNat ≤ 90)
      ∨ (97 ≤ c.val.toNat ∧ c.val.toNat ≤ 122)
      ∨ (48 ≤ c.val.toNat ∧ c.val.toNat ≤ 57) := by
  simp only [Char.isAlphanum, Char.isAlpha, Bool.or_eq_true, isUpper_iff, isLower_iff,
    isDigit_iff]
  tauto

theorem toNat_ofNat_valid (n : Nat) (h : n.isValidChar) :
    (Char.ofNat n).toNat = n := by
  simp only [Char.ofNat, dif_pos h, Char.ofNatAux, Char.toNat]
  simp [UInt32.toNat]

theorem toLower_alphanum (c : Char) (h : c.isAlphanum = true) :
    c.toLower.isAlphanum = true ∧ (c.toLower.isLower = true ∨ c.toLower.isDigit = true) := by
  rw [isAlphanum_iff] at h
  unfold Char.toLower
  simp only [Char.toNat]
  by_cases hu : c.val.toNat ≥ 65 ∧ c.val.toNat ≤ 90
  · rw [if_pos hu]
    have hv : (c.val.toNat + 32).isValidChar := Or.inl (by omega)
    have ht : (Char.ofNat (c.val.toNat + 32)).toNat = c.val.toNat + 32 :=
      toNat_ofNat_valid _ hv
    simp only [Char.toNat] at ht
    rw [isAlphanum_iff, isLower_iff, isDigit_iff]
    constructor
    · right; left; omega
    · left; omega
  · rw [if_neg hu]
    rw [isAlphanum_iff, isLower_iff, isDigit_iff]
    constructor
    · exact h
    · rcases h with h | h | h
      · exact absurd ⟨by omega, by omega⟩ hu
      · left; omega
      · right; omega

theorem toLower_toLower (c : Char) : c.toLower.toLower = c.toLower := by
  unfold Char.toLower
  simp only [Char.toNat]
  by_cases hu : c.val.toNat ≥ 65 ∧ c.val.toNat ≤ 90
  · rw [if_pos hu]
    have hv : (c.val.toNat + 32).isValidChar := Or.inl (by omega)
    have ht : (Char.ofNat (c.val.toNat + 32)).toNat = c.val.toNat + 32 :=
      toNat_ofNat_valid _ hv
    simp only [Char.toNat] at ht
    rw [if_neg (by omega)]
  · rw [if_neg hu, if_neg hu]

theorem pyIsAlnum_ascii (c : Char) (h : c.toNat < 128) : pyIsAlnum c = c.isAlphanum := by
  unfold pyIsAlnum
  rw [if_neg (by omega), if_neg (by omega)]

theorem pyLowerChar_ascii (c : Char) (h : c.toNat < 128) : pyLowerChar c = [c.toLower] := by
  unfold pyLowerChar
  rw [if_neg (by omega)]

theorem flatten_map_singleton {α β : Type} (l : List α) (f : α → β) :
    (l.map fun c => [f c]).flatten = l.map f := by
  induction l with
  | nil => rfl
  | cons a t ih => simp [ih]

/-- On ASCII input, `_norm` is filter-alphanumeric-then-lowercase. -/
theorem norm_ascii (s : String) (h : ∀ c ∈ s.data, c.toNat < 128) :
    _norm s = ⟨(s.data.filter Char.isAlphanum).map Char.toLower⟩ := by
  unfold _norm
  have hf : s.data.filter pyIsAlnum = s.data.filter Char.isAlphanum :=
    List.filter_congr fun c hc => by rw [pyIsAlnum_ascii c (h c hc)]
  rw [hf]
  have hm : (s.data.filter Char.isAlphanum).map pyLowerChar
      = (s.data.filter Char.isAlphanum).map fun c => [c.toLower] :=
    List.map_congr_left fun c hc => pyLowerChar_ascii c (h c (List.mem_of_mem_filter hc))
  rw [hm]
  exact congrArg String.mk (flatten_map_singleton _ _)

theorem toLower_toNat_lt (c : Char) (h : c.isAlphanum = true) : c.toLower.toNat < 128 := by
  rcases (toLower_alphanum c h).2 with h2 | h2
  · rw [isLower_iff] at h2
    simp only [Char.toNat]
    omega
  · rw [isDigit_iff] at h2
    simp only [Char.toNat]
    omega

/-- C9 counterexample. Python's `str.lower` is Unicode-wide: at U+0130
(dotted capital I, alphanumeric) the lowercase expansion is `"i"` plus the
combining dot above U+0307, which is not alphanumeric; a second `_norm`
drops it. So over all strings the derived key neither consists only of
alphanumeric characters nor is `_norm` idempotent. -/
theorem norm_unicode_counterexample :
    _norm ⟨[Char.ofNat 304]⟩ = ⟨[Char.ofNat 105, Char.ofNat 775]⟩
    ∧ ¬ ((_norm ⟨[Char.ofNat 304]⟩).data.all fun c => pyIsAlnum c)
    ∧ _norm (_norm ⟨[Char.ofNat 304]⟩) ≠ _norm ⟨[Char.ofNat 304]⟩ := by
  decide

/-- C9 amended. Normalized-key derivation is total (a Lean function on all
of `String`, including `""`); and on ASCII strings — every character below
U+0080, which covers every schema column and alias this application
handles — the result consists only of lowercase alphanumeric characters
and `_norm (_norm s) = _norm s`. Under full Unicode case mapping both
properties fail (see the U+0130 counterexample). -/
theorem norm_total_lower_idempotent (s : String) (h : ∀ c ∈ s.data, c.toNat < 128) :
    ((_norm s).data.all fun c => c.isAlphanum && (c.isLower || c.isDigit)) = true
    ∧ _norm (_norm s) = _norm s := by
  have hs : _norm s = ⟨(s.data.filter Char.isAlphanum).map Char.toLower⟩ := norm_ascii s h
  have hmem : ∀ c ∈ (_norm s).data,
      c.isAlphanum = true ∧ (c.isLower = true ∨ c.isDigit = true) := by
    intro c hc
    rw [hs] at hc
    simp only [List.mem_map, List.mem_filter] at hc
    obtain ⟨a, ⟨_, ha⟩, rfl⟩ := hc
    exact toLower_alphanum a ha
  constructor
  · rw [List.all_eq_true]
    intro c hc
    obtain ⟨h1, h2⟩ := hmem c hc
    simp only [Bool.and_eq_true, Bool.or_eq_true]
    exact ⟨h1, h2⟩
  · have hascii2 : ∀ c ∈ (_norm s).data, c.toNat < 128 := by
      intro c hc
      rw [hs] at hc
      simp only [List.mem_map, List.mem_filter] at hc
      obtain ⟨a, ⟨_, ha⟩, rfl⟩ := hc
      exact toLower_toNat_lt a ha
    rw [norm_ascii _ hascii2, hs]
    show String.mk _ = String.mk _
    congr 1
    have hfix : ∀ a ∈ (s.data.filter Char.isAlphanum).map Char.toLower,
        Char.isAlphanum a = true := by
      intro a ha
      simp only [List.mem_map, List.mem_filter] at ha
      obtain ⟨b, ⟨_, hb⟩, rfl⟩ := ha
      exact (toLower_alphanum b hb).1
    rw [List.filter_eq_self.mpr hfix, List.map_map]
    exact List.map_congr_left fun a _ => toLower_toLower a

theorem norm_total_lower_idempotent_witness :
    (∀ c ∈ ("Serial No.2" : String).data, c.toNat < 128)
    ∧ (((_norm "Serial No.2").data.all fun c => c.isAlphanum && (c.isLower || c.isDigit)) = true
      ∧ _norm (_norm "Serial No.2") = _norm "Serial No.2") :=
  ⟨by decide, norm_total_lower_idempotent "Serial No.2" (by decide)⟩

@[simp] theorem joinSep_single (sep x : String) : joinSep sep [x] = x := rfl

theorem strAppend_assoc (a b c : String) : a ++ b ++ c = a ++ (b ++ c) := by
  apply String.ext
  simp

theorem foldl_pair_append {α β γ : Type} (l : List α) (f : α → β) (g : α → γ)
    (a : List β) (b : List γ) :
    l.foldl (fun o c => (o.1 ++ [f c], o.2 ++ [g c])) (a, b)
      = (a ++ l.map f, b ++ l.map g) := by
  induction l generalizing a b with
  | nil => simp
  | cons x xs ih => simp [ih]

theorem foldl_clause_append (ts : List String) (F : String → String)
    (G : String → List String) (a b : List String) :
    ts.foldl (fun acc tok => (acc.1 ++ [F tok], acc.2 ++ G tok)) (a, b)
      = (a ++ ts.map F, b ++ (ts.map G).flatten) := by
  induction ts generalizing a b with
  | nil => simp
  | cons x xs ih => simp [ih]

/-- `strip q = ""` leaves no search tokens. -/
theorem searchTokens_of_strip_empty (q : String) (h : strip q = "") :
    searchTokens q = [] := by
  simp [searchTokens, h, pySplit, splitWsAux, String.data]

/-- The loop of `_build_token_search_where` produces the AND-of-ORs shape. -/
theorem build_token_search_shape (q : String) (cols preferred_cols : List String) :
    _build_token_search_where q cols preferred_cols
      = (if searchTokens q = [] then ("", [])
         else ("(" ++ joinSep " AND "
                  ((searchTokens q).map fun _ => tokenClause (searchCols cols preferred_cols))
                ++ ")",
               ((searchTokens q).map (tokenParams (searchCols cols preferred_cols))).flatten)) := by
  unfold _build_token_search_where
  by_cases hq : strip q = ""
  · rw [if_pos hq, searchTokens_of_strip_empty q hq]
    simp
  · rw [if_neg hq]
    by_cases ht : searchTokens q = []
    · simp [ht]
    · rw [if_neg ht, if_neg ht]
      have hin : ∀ tok, (searchCols cols preferred_cols).foldl
          (fun (o : List String × List String) c =>
            (o.1 ++ [likeExpr c], o.2 ++ ["%" ++ tok ++ "%"])) ([], [])
          = ((searchCols cols preferred_cols).map likeExpr, tokenParams (searchCols cols preferred_cols) tok) := by
        intro tok
        rw [foldl_pair_append]
        simp [tokenParams]
      simp only [hin]
      rw [foldl_clause_append]
      simp [tokenClause]

/-- The parameter list of the token search has `tokens × columns` entries. -/
theorem build_token_search_params_length (q : String) (cols preferred_cols : List String) :
    (_build_token_search_where q cols preferred_cols).2.length
      = (searchTokens q).length * (searchCols cols preferred_cols).length := by
  rw [build_token_search_shape]
  by_cases ht : searchTokens q = []
  · simp [ht]
  · rw [if_neg ht]
    simp only [List.length_flatten, List.map_map]
    have : ((searchTokens q).map fun tok =>
        (tokenParams (searchCols cols preferred_cols) tok).length)
        = (searchTokens q).map fun _ => (searchCols cols preferred_cols).length := by
      apply List.map_congr_left
      intro a _
      simp [tokenParams]
    rw [show (List.length ∘ tokenParams (searchCols cols preferred_cols))
        = fun tok => (tokenParams (searchCols cols preferred_cols) tok).length from rfl, this]
    induction searchTokens q with
    | nil => simp
    | cons x xs ih => simp [ih, Nat.succ_mul, Nat.add_comm]

/-- C6. The token search predicate is an AND of per-token ORs: one conjunct
per whitespace token, one case-insensitive substring test per selected
column inside each conjunct, `tokens × columns` parameters, and an empty or
whitespace-only query yields the empty predicate. -/
theorem token_search_and_of_ors (q : String) (cols preferred_cols : List String) :
    _build_token_search_where q cols preferred_cols
      = (if searchTokens q = [] then ("", [])
         else ("(" ++ joinSep " AND "
                  ((searchTokens q).map fun _ => tokenClause (searchCols cols preferred_cols))
                ++ ")",
               ((searchTokens q).map (tokenParams (searchCols cols preferred_cols))).flatten))
    ∧ (_build_token_search_where q cols preferred_cols).2.length
      = (searchTokens q).length * (searchCols cols preferred_cols).length :=
  ⟨build_token_search_shape q cols preferred_cols,
   build_token_search_params_length q cols preferred_cols⟩

/-! ## C5: a role normalizing to "admin" yields the empty predicate -/

/-- C5. For every zone value, engineer value and schema snapshot of either
entity kind, a principal whose role strips and lowercases to `"admin"`
receives the empty scope predicate (empty clause, empty parameter list). -/
theorem admin_scope_empty (p : Principal) (install_cols wsr_cols : List String)
    (h : lowerStr (strip p.role) = "admin") :
    _installbase_scope_where p install_cols = ("", [])
    ∧ _wsr_scope_where p wsr_cols = ("", []) := by
  constructor
  · unfold _installbase_scope_where
    rw [h]
    simp
  · unfold _wsr_scope_where
    rw [h]
    simp

theorem admin_scope_empty_witness :
    lowerStr (strip "  Admin ") = "admin"
    ∧ (_installbase_scope_where ⟨"  Admin ", "East", "Raj Kumar"⟩ ["ZONE", "SERVICE_ENGR"]
         = ("", [])
      ∧ _wsr_scope_where ⟨"  Admin ", "East", "Raj Kumar"⟩ ["Zone", "EngineerName"]
         = ("", [])) :=
  ⟨by decide,
   admin_scope_empty ⟨"  Admin ", "East", "Raj Kumar"⟩ ["ZONE", "SERVICE_ENGR"]
     ["Zone", "EngineerName"] (by decide)⟩

/-! ## C2: ordinary-user scope

The claim states that for both entity kinds an ordinary user's predicate is
a zone test AND an engineer test with two parameters.  That is the observed
behaviour of `_wsr_scope_where` only: `_installbase_scope_where` puts the
zone test in the manager branch alone, so an ordinary user is filtered by
the service-engineer test only. -/

/-- C2 counterexample. On a schema where both the zone and the
service-engineer column resolve, an ordinary user (`role="user"`,
`zone="East"`, `engineer="Raj Kumar"`) gets an install-base predicate with
a single parameter — the engineer — not the claimed zone-AND-engineer pair. -/
theorem installbase_user_scope_counterexample :
    _installbase_scope_where ⟨"user", "East", "Raj Kumar"⟩ ["ZONE", "SERVICE_ENGR"]
      = (" WHERE " ++ _cmp_ci_trim "SERVICE_ENGR" ++ " = UPPER(?)", ["Raj Kumar"])
    ∧ (_installbase_scope_where ⟨"user", "East", "Raj Kumar"⟩ ["ZONE", "SERVICE_ENGR"]).2
      ≠ ["East", "Raj Kumar"] := by
  decide

/-- C2 amended. For an ordinary user (role neither admin nor manager-like)
with non-empty zone and engineer and with all scope columns resolving, the
report-log predicate is zone-equality AND engineer-equality with exactly the
two parameters `[zone, engineer]` in that order, while the install-base
predicate is the service-engineer equality test with the single parameter
`[engineer]` (its zone conjunct exists only for manager-like roles). -/
theorem ordinary_user_scope (p : Principal) (cols : List String)
    (hadmin : lowerStr (strip p.role) ≠ "admin")
    (hmgr : _is_manager_like (lowerStr (strip p.role)) = false)
    (hz : strip p.zone ≠ "") (he : strip p.engineer ≠ "")
    (zc ec sc : String)
    (hzc : _find_col cols ["Zone", "ZONE"] ["zone"] = some zc)
    (hec : _find_col cols ["EngineerName", "Engineer Name", "ENGINEER_NAME"]
      ["engineer", "name"] = some ec)
    (hsc : _find_col cols ["SERVICE_ENGR", "SERVICE ENGR", "SERVICE_ENGINEER", "SERVICE ENGINEER"]
      ["service", "engr"] = some sc) :
    _wsr_scope_where p cols
      = (" WHERE " ++ joinSep " AND "
           [_cmp_ci_trim zc ++ " = UPPER(?)", _cmp_ci_trim ec ++ " = UPPER(?)"],
         [strip p.zone, strip p.engineer])
    ∧ _installbase_scope_where p cols
      = (" WHERE " ++ _cmp_ci_trim sc ++ " = UPPER(?)", [strip p.engineer]) := by
  constructor
  · unfold _wsr_scope_where
    rw [if_neg hadmin, hzc, hec]
    simp [hz, he, hmgr]
  · unfold _installbase_scope_where
    rw [if_neg hadmin, hsc, hmgr]
    simp [he, strAppend_assoc]

theorem ordinary_user_scope_witness :
    lowerStr (strip "user") ≠ "admin"
    ∧ _is_manager_like (lowerStr (strip "user")) = false
    ∧ strip "East" ≠ ""
    ∧ strip "Raj Kumar" ≠ ""
    ∧ _find_col ["Zone", "EngineerName", "SERVICE_ENGR"] ["Zone", "ZONE"] ["zone"] = some "Zone"
    ∧ (_wsr_scope_where ⟨"user", "East", "Raj Kumar"⟩ ["Zone", "EngineerName", "SERVICE_ENGR"]
        = (" WHERE " ++ joinSep " AND "
             [_cmp_ci_trim "Zone" ++ " = UPPER(?)", _cmp_ci_trim "EngineerName" ++ " = UPPER(?)"],
           [strip "East", strip "Raj Kumar"])
      ∧ _installbase_scope_where ⟨"user", "East", "Raj Kumar"⟩ ["Zone", "EngineerName", "SERVICE_ENGR"]
        = (" WHERE " ++ _cmp_ci_trim "SERVICE_ENGR" ++ " = UPPER(?)", [strip "Raj Kumar"])) :=
  ⟨by decide, by decide, by decide, by decide, by decide,
   ordinary_user_scope ⟨"user", "East", "Raj Kumar"⟩ ["Zone", "EngineerName", "SERVICE_ENGR"]
     (by decide) (by decide) (by decide) (by decide) "Zone" "EngineerName" "SERVICE_ENGR"
     (by decide) (by decide) (by decide)⟩

/-! ## C3: clause text and the parameter channel

The claim asserts the clause text is identical across runs that differ only
in the caller-supplied values.  The clause text in fact also depends on how
many conjuncts survive (a predicate for an empty zone value drops the zone
conjunct; a query with more tokens has more conjuncts), so the literal
"identical clause text" reading fails; what holds is that the clause text is
a function of the role category, the value-presence pattern, the resolved
columns and the token count — the values themselves travel only in the
parameter list. -/

/-- C3 counterexample. Two runs with the same role category (none — a pure
search) and the same resolved columns but different query values produce
different clause text: the number of conjuncts follows the token count. -/
theorem search_clause_counterexample :
    (_build_token_search_where "east" ["Zone", "Engineer"] ["Zone", "Engineer"]).1
      ≠ (_build_token_search_where "east raj" ["Zone", "Engineer"] ["Zone", "Engineer"]).1 := by
  decide

/-- C3 amended. The clause text never embeds caller-supplied values: two
principals with the same role category (same admin test, same manager-like
test) and the same value-presence pattern receive identical scope clause
text over the same schema, whatever their zone/engineer values; two queries
with the same token count produce identical search clause text; only the
parameter lists differ. -/
theorem clause_text_value_independent
    (p p2 : Principal) (cols : List String) (q q2 : String) (pref : List String)
    (hadmin : (lowerStr (strip p.role) = "admin") ↔ (lowerStr (strip p2.role) = "admin"))
    (hmgr : _is_manager_like (lowerStr (strip p.role))
      = _is_manager_like (lowerStr (strip p2.role)))
    (hz : (strip p.zone = "") ↔ (strip p2.zone = ""))
    (he : (strip p.engineer = "") ↔ (strip p2.engineer = ""))
    (htok : (searchTokens q).length = (searchTokens q2).length) :
    (_installbase_scope_where p cols).1 = (_installbase_scope_where p2 cols).1
    ∧ (_wsr_scope_where p cols).1 = (_wsr_scope_where p2 cols).1
    ∧ (_build_token_search_where q cols pref).1 = (_build_token_search_where q2 cols pref).1 := by
  refine ⟨?_, ?_, ?_⟩
  · unfold _installbase_scope_where
    by_cases ha : lowerStr (strip p.role) = "admin"
    · rw [if_pos ha, if_pos (hadmin.mp ha)]
    · rw [if_neg ha, if_neg (fun h => ha (hadmin.mpr h)), ← hmgr]
      by_cases hm : _is_manager_like (lowerStr (strip p.role))
      · rw [if_pos hm, if_pos hm]
        cases _find_col cols ["ZONE"] ["zone"] with
        | none => rfl
        | some zc =>
          by_cases hze : strip p.zone = ""
          · have hze2 : strip p2.zone = "" := hz.mp hze
            simp [hze, hze2]
          · have hze2 : ¬ strip p2.zone = "" := fun h => hze (hz.mpr h)
            simp [hze, hze2]
      · rw [if_neg hm, if_neg hm]
        cases _find_col cols
          ["SERVICE_ENGR", "SERVICE ENGR", "SERVICE_ENGINEER", "SERVICE ENGINEER"]
          ["service", "engr"] with
        | none => rfl
        | some sc =>
          by_cases hee : strip p.engineer = ""
          · have hee2 : strip p2.engineer = "" := he.mp hee
            simp [hee, hee2]
          · have hee2 : ¬ strip p2.engineer = "" := fun h => hee (he.mpr h)
            simp [hee, hee2]
  · unfold _wsr_scope_where
    by_cases ha : lowerStr (strip p.role) = "admin"
    · rw [if_pos ha, if_pos (hadmin.mp ha)]
    · rw [if_neg ha, if_neg (fun h => ha (hadmin.mpr h)), ← hmgr]
      have hze2 := hz
      have hee2 := he
      cases _find_col cols ["Zone", "ZONE"] ["zone"] with
      | none =>
        cases _find_col cols ["EngineerName", "Engineer Name", "ENGINEER_NAME"]
          ["engineer", "name"] with
        | none => rfl
        | some ec =>
          by_cases hee : strip p.engineer = ""
          · have h2 : strip p2.engineer = "" := he.mp hee
            simp [hee, h2]
          · have h2 : ¬ strip p2.engineer = "" := fun h => hee (he.mpr h)
            by_cases hm : _is_manager_like (lowerStr (strip p.role)) = false
            · simp [hee, h2, hm]
            · simp [hm]
      | some zc =>
        cases _find_col cols ["EngineerName", "Engineer Name", "ENGINEER_NAME"]
          ["engineer", "name"] with
        | none =>
          by_cases hze : strip p.zone = ""
          · have h2 : strip p2.zone = "" := hz.mp hze
            simp [hze, h2]
          · have h2 : ¬ strip p2.zone = "" := fun h => hze (hz.mpr h)
            simp [hze, h2]
        | some ec =>
          by_cases hze : strip p.zone = ""
          · by_cases hee : strip p.engineer = ""
            · have h2 : strip p2.zone = "" := hz.mp hze
              have h3 : strip p2.engineer = "" := he.mp hee
              simp [hze, h2, hee, h3]
            · have h2 : strip p2.zone = "" := hz.mp hze
              have h3 : ¬ strip p2.engineer = "" := fun h => hee (he.mpr h)
              by_cases hm : _is_manager_like (lowerStr (strip p.role)) = false
              · simp [hze, h2, hee, h3, hm]
              · simp [hze, h2, hm]
          · by_cases hee : strip p.engineer = ""
            · have h2 : ¬ strip p2.zone = "" := fun h => hze (hz.mpr h)
              have h3 : strip p2.engineer = "" := he.mp hee
              simp [hze, h2, hee, h3]
            · have h2 : ¬ strip p2.zone = "" := fun h => hze (hz.mpr h)
              have h3 : ¬ strip p2.engineer = "" := fun h => hee (he.mpr h)
              by_cases hm : _is_manager_like (lowerStr (strip p.role)) = false
              · simp [hze, h2, hee, h3, hm]
              · simp [hze, h2, hm]
  · rw [build_token_search_shape, build_token_search_shape]
    by_cases ht : searchTokens q = []
    · have ht2 : searchTokens q2 = [] := by
        rw [ht] at htok
        exact List.length_eq_zero.mp htok.symm
      rw [ht, ht2]
    · have ht2 : searchTokens q2 ≠ [] := by
        intro h
        rw [h] at htok
        exact ht (List.length_eq_zero.mp htok)
      rw [if_neg ht, if_neg ht2]
      have : (searchTokens q).map (fun _ => tokenClause (searchCols cols pref))
          = (searchTokens q2).map fun _ => tokenClause (searchCols cols pref) := by
        rw [List.map_const', List.map_const', htok]
      simp [this]

theorem clause_text_value_independent_witness :
    ((lowerStr (strip "user") = "admin") ↔ (lowerStr (strip "user") = "admin"))
    ∧ _is_manager_like (lowerStr (strip "user")) = _is_manager_like (lowerStr (strip "user"))
    ∧ ((strip "East" = "") ↔ (strip "West" = ""))
    ∧ ((strip "Raj Kumar" = "") ↔ (strip "Mohan Lal" = ""))
    ∧ (searchTokens "east raj").length = (searchTokens "west mohan").length
    ∧ ((_installbase_scope_where ⟨"user", "East", "Raj Kumar"⟩ ["ZONE", "SERVICE_ENGR"]).1
        = (_installbase_scope_where ⟨"user", "West", "Mohan Lal"⟩ ["ZONE", "SERVICE_ENGR"]).1
      ∧ (_wsr_scope_where ⟨"user", "East", "Raj Kumar"⟩ ["ZONE", "SERVICE_ENGR"]).1
        = (_wsr_scope_where ⟨"user", "West", "Mohan Lal"⟩ ["ZONE", "SERVICE_ENGR"]).1
      ∧ (_build_token_search_where "east raj" ["ZONE", "SERVICE_ENGR"] ["ZONE"]).1
        = (_build_token_search_where "west mohan" ["ZONE", "SERVICE_ENGR"] ["ZONE"]).1) :=
  ⟨Iff.rfl, rfl, by decide, by decide, by decide,
   clause_text_value_independent ⟨"user", "East", "Raj Kumar"⟩ ⟨"user", "West", "Mohan Lal"⟩
     ["ZONE", "SERVICE_ENGR"] "east raj" "west mohan" ["ZONE"]
     Iff.rfl rfl (by decide) (by decide) (by decide)⟩

/-! ## C4: the resolver's exact phase

`_col_index` is a dict comprehension, so when two schema columns share one
normalized key the LATER column overwrites the earlier one; the exact phase
therefore returns the last matching schema column, not the first. The
first-alias-wins part of the claim does hold. -/

theorem col_index_append (l : List String) (x k : String) :
    _col_index (l ++ [x]) k = if k = _norm x then some x else _col_index l k := by
  unfold _col_index
  rw [List.foldl_append]
  rfl

theorem col_index_nil (k : String) : _col_index [] k = none := rfl

/-- A `_col_index` hit is the LAST schema column bearing the looked-up key. -/
theorem col_index_some (cols : List String) (k c : String)
    (h : _col_index cols k = some c) :
    ∃ l1 l2, cols = l1 ++ c :: l2 ∧ _norm c = k ∧ ∀ c2 ∈ l2, _norm c2 ≠ k := by
  induction cols using List.reverseRecOn with
  | nil => simp [col_index_nil] at h
  | append_singleton xs x ih =>
    rw [col_index_append] at h
    by_cases hk : k = _norm x
    · rw [if_pos hk] at h
      obtain rfl : x = c := by injection h
      exact ⟨xs, [], rfl, hk.symm, by simp⟩
    · rw [if_neg hk] at h
      obtain ⟨l1, l2, rfl, hc, hl2⟩ := ih h
      refine ⟨l1, l2 ++ [x], by simp, hc, ?_⟩
      intro c2 hc2
      rcases List.mem_append.mp hc2 with h2 | h2
      · exact hl2 c2 h2
      · obtain rfl : c2 = x := by simpa using h2
        exact fun hx => hk hx.symm

theorem findSome?_skip_none {α β : Type} (f : α → Option β) (pre : List α)
    (rest : List α) (hpre : ∀ x ∈ pre, f x = none) :
    List.findSome? f (pre ++ rest) = List.findSome? f rest := by
  induction pre with
  | nil => simp
  | cons y ys ih =>
    have hy : f y = none := hpre y (by simp)
    rw [List.cons_append, List.findSome?_cons, hy]
    exact ih fun x hx => hpre x (by simp [hx])

/-- C4 counterexample. Schema `["ZONE", "Zone"]`: both columns have
normalized key `"zone"`; the claim says the first schema column `"ZONE"` is
returned, but the exact phase returns the last one, `"Zone"`. -/
theorem find_col_exact_counterexample :
    _find_col ["ZONE", "Zone"] ["zone"] [] = some "Zone"
    ∧ _find_col ["ZONE", "Zone"] ["zone"] [] ≠ some "ZONE" := by
  decide

/-- C4 amended. The resolver is deterministic (it is a pure function of the
snapshot and the alias list) and in its exact phase the first alias in
caller priority order that has any matching column wins; but when several
schema columns share that alias's normalized key the LAST such schema
column (the most recent dict insertion) is returned, not the first. -/
theorem find_col_exact_phase (cols : List String) (a : String)
    (pre post : List String)
    (hpre : ∀ x ∈ pre, _col_index cols (_norm x) = none)
    (c : String) (hhit : _col_index cols (_norm a) = some c) :
    _find_col cols (pre ++ a :: post) [] = some c
    ∧ ∃ l1 l2, cols = l1 ++ c :: l2 ∧ _norm c = _norm a
        ∧ ∀ c2 ∈ l2, _norm c2 ≠ _norm a := by
  constructor
  · have h1 : List.findSome? (fun x => _col_index cols (_norm x)) (pre ++ a :: post)
        = some c := by
      rw [findSome?_skip_none _ pre _ hpre, List.findSome?_cons, hhit]
    unfold _find_col
    simp only [h1]
  · obtain ⟨l1, l2, h1, h2, h3⟩ := col_index_some cols (_norm a) c hhit
    exact ⟨l1, l2, h1, h2, h3⟩

theorem find_col_exact_phase_witness :
    (∀ x ∈ ["ZONEX"], _col_index ["ZONE", "Zone"] (_norm x) = none)
    ∧ _col_index ["ZONE", "Zone"] (_norm "zone") = some "Zone"
    ∧ (_find_col ["ZONE", "Zone"] (["ZONEX"] ++ "zone" :: []) [] = some "Zone"
      ∧ ∃ l1 l2, ["ZONE", "Zone"] = l1 ++ "Zone" :: l2 ∧ _norm "Zone" = _norm "zone"
          ∧ ∀ c2 ∈ l2, _norm c2 ≠ _norm "zone") :=
  ⟨by decide, by decide,
   find_col_exact_phase ["ZONE", "Zone"] "zone" ["ZONEX"] [] (by decide) "Zone" (by decide)⟩

/-! ### `strip` is idempotent -/

theorem dropWhile_head_false (p : Char → Bool) :
    ∀ (l : List Char) (c : Char), (l.dropWhile p).head? = some c → p c = false := by
  intro l
  induction l with
  | nil => intro c h; simp at h
  | cons a t ih =>
    intro c h
    by_cases hp : p a
    · rw [List.dropWhile_cons_of_pos hp] at h
      exact ih c h
    · rw [List.dropWhile_cons_of_neg hp] at h
      obtain rfl : a = c := by simpa using h
      simpa using hp

theorem dropWhile_eq_self_of_head (p : Char → Bool) (l : List Char)
    (h : ∀ c, l.head? = some c → p c = false) : l.dropWhile p = l := by
  cases l with
  | nil => rfl
  | cons a t => exact List.dropWhile_cons_of_neg (by simpa using h a rfl)

theorem dropEndWhile_idem (p : Char → Bool) :
    ∀ l, dropEndWhile p (dropEndWhile p l) = dropEndWhile p l := by
  intro l
  induction l with
  | nil => rfl
  | cons c cs ih =>
    rw [dropEndWhile]
    by_cases hb : dropEndWhile p cs = [] ∧ p c = true
    · rw [if_pos (by simp [hb.1, hb.2])]
      rfl
    · rw [if_neg (by simp only [Bool.and_eq_true, decide_eq_true_eq]; simpa using hb)]
      rw [dropEndWhile, ih]
      rw [if_neg (by simp only [Bool.and_eq_true, decide_eq_true_eq]; simpa using hb)]

theorem dropEndWhile_head (p : Char → Bool) :
    ∀ l, dropEndWhile p l = [] ∨ (dropEndWhile p l).head? = l.head? := by
  intro l
  cases l with
  | nil => exact Or.inl rfl
  | cons c cs =>
    rw [dropEndWhile]
    by_cases hb : dropEndWhile p cs = [] ∧ p c = true
    · exact Or.inl (by rw [if_pos (by simp [hb.1, hb.2])])
    · right
      rw [if_neg (by simp only [Bool.and_eq_true, decide_eq_true_eq]; simpa using hb)]
      rfl

theorem stripChars_idem (l : List Char) : stripChars (stripChars l) = stripChars l := by
  unfold stripChars
  rcases dropEndWhile_head Char.isWhitespace (l.dropWhile Char.isWhitespace) with h | h
  · rw [h]
    rfl
  · have hd : (dropEndWhile Char.isWhitespace
        (l.dropWhile Char.isWhitespace)).dropWhile Char.isWhitespace
        = dropEndWhile Char.isWhitespace (l.dropWhile Char.isWhitespace) := by
      apply dropWhile_eq_self_of_head
      intro c hc
      exact dropWhile_head_false Char.isWhitespace l c (h ▸ hc)
    rw [hd, dropEndWhile_idem]

theorem strip_strip (s : String) : strip (strip s) = strip s :=
  congrArg String.mk (stripChars_idem s.data)

/-! ### Merge-loop invariants -/

theorem lowerStr_empty : lowerStr "" = "" := rfl

theorem lowerStr_ne_empty (x : String) (h : x ≠ "") : lowerStr x ≠ "" := by
  intro he
  apply h
  apply String.ext
  have h2 : (lowerStr x).data = [] := by rw [he]
  simpa [lowerStr] using h2

theorem contains_mem (l : List String) (k : String) (h : l.contains k = true) : k ∈ l := by
  obtain ⟨b, hb, he⟩ := List.contains_iff_exists_mem_beq.mp h
  exact (eq_of_beq he) ▸ hb

theorem not_contains_not_mem (l : List String) (k : String)
    (h : ¬ l.contains k = true) : k ∉ l :=
  fun hm => h (List.contains_iff_exists_mem_beq.mpr ⟨_, hm, by simp⟩)

theorem mergeColVals_spec (vs : List String) : ∀ seen items,
    (∀ x ∈ items, lowerStr x ∈ seen)
    → (∀ x ∈ items, strip x = x ∧ x ≠ "")
    → items.Pairwise (fun a b => lowerStr a ≠ lowerStr b)
    → (∀ x ∈ (mergeColVals seen items vs).2, lowerStr x ∈ (mergeColVals seen items vs).1)
      ∧ (∀ x ∈ (mergeColVals seen items vs).2, strip x = x ∧ x ≠ "")
      ∧ (mergeColVals seen items vs).2.Pairwise (fun a b => lowerStr a ≠ lowerStr b)
      ∧ ∃ t, (mergeColVals seen items vs).2 = items ++ t ∧ t.Sublist (vs.map strip) := by
  induction vs with
  | nil =>
    intro seen items h1 h2 h3
    exact ⟨h1, h2, h3, [], by simp [mergeColVals], by simp⟩
  | cons v vs ih =>
    intro seen items h1 h2 h3
    simp only [mergeColVals]
    by_cases hvv : strip v = ""
    · rw [if_pos hvv]
      obtain ⟨g1, g2, g3, t, ht, hs⟩ := ih seen items h1 h2 h3
      exact ⟨g1, g2, g3, t, ht, hs.trans (List.sublist_cons_self _ _)⟩
    · rw [if_neg hvv]
      by_cases hcon : seen.contains (lowerStr (strip v))
      · rw [if_pos hcon]
        obtain ⟨g1, g2, g3, t, ht, hs⟩ := ih seen items h1 h2 h3
        exact ⟨g1, g2, g3, t, ht, hs.trans (List.sublist_cons_self _ _)⟩
      · rw [if_neg hcon]
        have hnot : lowerStr (strip v) ∉ seen := by
          intro hmem
          exact hcon (List.contains_iff_exists_mem_beq.mpr ⟨_, hmem, by simp⟩)
        have h1b : ∀ x ∈ items ++ [strip v], lowerStr x ∈ lowerStr (strip v) :: seen := by
          intro x hx
          rcases List.mem_append.mp hx with hx | hx
          · exact List.mem_cons_of_mem _ (h1 x hx)
          · obtain rfl : x = strip v := by simpa using hx
            exact List.mem_cons_self _ _
        have h2b : ∀ x ∈ items ++ [strip v], strip x = x ∧ x ≠ "" := by
          intro x hx
          rcases List.mem_append.mp hx with hx | hx
          · exact h2 x hx
          · obtain rfl : x = strip v := by simpa using hx
            exact ⟨strip_strip v, hvv⟩
        have h3b : (items ++ [strip v]).Pairwise (fun a b => lowerStr a ≠ lowerStr b) := by
          rw [List.pairwise_append]
          refine ⟨h3, by simp, ?_⟩
          intro a ha b hb
          obtain rfl : b = strip v := by simpa using hb
          intro hab
          exact hnot (hab ▸ h1 a ha)
        by_cases hlen : 12 ≤ (items ++ [strip v]).length
        · rw [if_pos hlen]
          exact ⟨h1b, h2b, h3b, [strip v], rfl,
            List.cons_sublist_cons.mpr (List.nil_sublist _)⟩
        · rw [if_neg hlen]
          obtain ⟨g1, g2, g3, t, ht, hs⟩ := ih _ _ h1b h2b h3b
          refine ⟨g1, g2, g3, strip v :: t, by simpa using ht, ?_⟩
          exact List.cons_sublist_cons.mpr hs

theorem mergeColVals_length (vs : List String) : ∀ seen items, items.length < 12 →
    (mergeColVals seen items vs).2.length ≤ 12 := by
  induction vs with
  | nil =>
    intro seen items h
    exact Nat.le_of_lt h
  | cons v vs ih =>
    intro seen items h
    simp only [mergeColVals]
    by_cases hvv : strip v = ""
    · rw [if_pos hvv]; exact ih seen items h
    · rw [if_neg hvv]
      by_cases hcon : seen.contains (lowerStr (strip v))
      · rw [if_pos hcon]; exact ih seen items h
      · rw [if_neg hcon]
        by_cases hlen : 12 ≤ (items ++ [strip v]).length
        · rw [if_pos hlen]
          simp only [List.length_append, List.length_singleton]
          omega
        · rw [if_neg hlen]
          exact ih _ _ (by omega)

/-- `mergeColVals` never removes a key from `seen`. -/
theorem mergeColVals_seen_mono (vs : List String) : ∀ seen items k, k ∈ seen →
    k ∈ (mergeColVals seen items vs).1 := by
  induction vs with
  | nil =>
    intro seen items k hk
    simpa [mergeColVals] using hk
  | cons v vs ih =>
    intro seen items k hk
    simp only [mergeColVals]
    by_cases hvv : strip v = ""
    · rw [if_pos hvv]
      exact ih _ _ _ hk
    · rw [if_neg hvv]
      by_cases hcon : seen.contains (lowerStr (strip v))
      · rw [if_pos hcon]
        exact ih _ _ _ hk
      · rw [if_neg hcon]
        by_cases hlen : 12 ≤ (items ++ [strip v]).length
        · rw [if_pos hlen]
          exact List.mem_cons_of_mem _ hk
        · rw [if_neg hlen]
          exact ih _ _ _ (List.mem_cons_of_mem _ hk)

/-- When the 12-cap is not reached, the whole column was processed: every
non-blank value's case class ends up recorded in `seen`. -/
theorem mergeColVals_seen_complete (vs : List String) : ∀ seen items,
    (mergeColVals seen items vs).2.length < 12 →
    ∀ v ∈ vs, strip v = "" ∨ lowerStr (strip v) ∈ (mergeColVals seen items vs).1 := by
  induction vs with
  | nil =>
    intro seen items h v hv
    simp at hv
  | cons v0 vs ih =>
    intro seen items h v hv
    simp only [mergeColVals] at h ⊢
    by_cases hvv : strip v0 = ""
    · rw [if_pos hvv] at h ⊢
      rcases List.mem_cons.mp hv with rfl | hv2
      · exact Or.inl hvv
      · exact ih _ _ h v hv2
    · rw [if_neg hvv] at h ⊢
      by_cases hcon : seen.contains (lowerStr (strip v0))
      · rw [if_pos hcon] at h ⊢
        rcases List.mem_cons.mp hv with rfl | hv2
        · exact Or.inr (mergeColVals_seen_mono vs seen items _ (contains_mem _ _ hcon))
        · exact ih _ _ h v hv2
      · rw [if_neg hcon] at h ⊢
        by_cases hlen : 12 ≤ (items ++ [strip v0]).length
        · rw [if_pos hlen] at h
          simp only [List.length_append, List.length_singleton] at h hlen
          omega
        · rw [if_neg hlen] at h ⊢
          rcases List.mem_cons.mp hv with rfl | hv2
          · exact Or.inr (mergeColVals_seen_mono vs _ _ _ (List.mem_cons_self _ _))
          · exact ih _ _ h v hv2

/-- Every collected item's case class is recorded in the resulting `seen`. -/
theorem mergeColVals_class_tracked (vs : List String) : ∀ seen items,
    (∀ x ∈ items, lowerStr x ∈ seen) →
    ∀ x ∈ (mergeColVals seen items vs).2, lowerStr x ∈ (mergeColVals seen items vs).1 := by
  induction vs with
  | nil =>
    intro seen items h1
    simpa [mergeColVals] using h1
  | cons v vs ih =>
    intro seen items h1
    simp only [mergeColVals]
    by_cases hvv : strip v = ""
    · rw [if_pos hvv]
      exact ih _ _ h1
    · rw [if_neg hvv]
      by_cases hcon : seen.contains (lowerStr (strip v))
      · rw [if_pos hcon]
        exact ih _ _ h1
      · rw [if_neg hcon]
        have h1b : ∀ x ∈ items ++ [strip v], lowerStr x ∈ lowerStr (strip v) :: seen := by
          intro x hx
          rcases List.mem_append.mp hx with hx | hx
          · exact List.mem_cons_of_mem _ (h1 x hx)
          · obtain rfl : x = strip v := by simpa using hx
            exact List.mem_cons_self _ _
        by_cases hlen : 12 ≤ (items ++ [strip v]).length
        · rw [if_pos hlen]
          exact h1b
        · rw [if_neg hlen]
          exact ih _ _ h1b

/-- First occurrence wins with its casing preserved: every element the
merge appends is a stripped store value occurring in the column's stream at
a position before which no value of the same case-insensitive class (and
none whose class is already in `seen`) appears. -/
theorem mergeColVals_first (vs : List String) : ∀ seen items,
    ∃ t, (mergeColVals seen items vs).2 = items ++ t
      ∧ ∀ x ∈ t, x ≠ "" ∧ lowerStr x ∉ seen
        ∧ ∃ pre post, vs.map strip = pre ++ x :: post
            ∧ ∀ y ∈ pre, lowerStr y ≠ lowerStr x := by
  induction vs with
  | nil =>
    intro seen items
    exact ⟨[], by simp [mergeColVals], by simp⟩
  | cons v vs ih =>
    intro seen items
    simp only [mergeColVals]
    by_cases hvv : strip v = ""
    · rw [if_pos hvv]
      obtain ⟨t, ht, hp⟩ := ih seen items
      refine ⟨t, ht, ?_⟩
      intro x hx
      obtain ⟨hne, hns, pre, post, hm, hpre⟩ := hp x hx
      refine ⟨hne, hns, strip v :: pre, post, by simp [hm], ?_⟩
      intro y hy
      rcases List.mem_cons.mp hy with rfl | hy2
      · rw [hvv, lowerStr_empty]
        exact fun he => lowerStr_ne_empty x hne he.symm
      · exact hpre y hy2
    · rw [if_neg hvv]
      by_cases hcon : seen.contains (lowerStr (strip v))
      · rw [if_pos hcon]
        obtain ⟨t, ht, hp⟩ := ih seen items
        refine ⟨t, ht, ?_⟩
        intro x hx
        obtain ⟨hne, hns, pre, post, hm, hpre⟩ := hp x hx
        refine ⟨hne, hns, strip v :: pre, post, by simp [hm], ?_⟩
        intro y hy
        rcases List.mem_cons.mp hy with rfl | hy2
        · exact fun he => hns (he ▸ contains_mem _ _ hcon)
        · exact hpre y hy2
      · rw [if_neg hcon]
        have hnmem : lowerStr (strip v) ∉ seen := not_contains_not_mem _ _ hcon
        by_cases hlen : 12 ≤ (items ++ [strip v]).length
        · rw [if_pos hlen]
          refine ⟨[strip v], rfl, ?_⟩
          intro x hx
          obtain rfl : x = strip v := by simpa using hx
          exact ⟨hvv, hnmem, [], vs.map strip, by simp, by simp⟩
        · rw [if_neg hlen]
          obtain ⟨t, ht, hp⟩ := ih (lowerStr (strip v) :: seen) (items ++ [strip v])
          refine ⟨strip v :: t, by simp [ht], ?_⟩
          intro x hx
          rcases List.mem_cons.mp hx with rfl | hx2
          · exact ⟨hvv, hnmem, [], vs.map strip, by simp, by simp⟩
          · obtain ⟨hne, hns2, pre, post, hm, hpre⟩ := hp x hx2
            have hns : lowerStr x ∉ seen := fun hmem => hns2 (List.mem_cons_of_mem _ hmem)
            refine ⟨hne, hns, strip v :: pre, post, by simp [hm], ?_⟩
            intro y hy
            rcases List.mem_cons.mp hy with rfl | hy2
            · intro he
              exact hns2 (by rw [← he]; exact List.mem_cons_self _ _)
            · exact hpre y hy2

/-- Across columns, in priority order: every suggestion is the first
occurrence of its case-insensitive class in the concatenated store stream,
kept with its original (stripped) casing. -/
theorem suggestLoop_first (fetch : String → List String) (colsL : List String) :
    ∀ seen items ops,
    (∀ x ∈ items, lowerStr x ∈ seen) → items.length < 12 →
    ∃ t, (suggestLoop fetch seen items ops colsL).1 = items ++ t
      ∧ ∀ x ∈ t, x ≠ "" ∧ lowerStr x ∉ seen
        ∧ ∃ pre post, (colsL.map fetch).flatten.map strip = pre ++ x :: post
            ∧ ∀ y ∈ pre, lowerStr y ≠ lowerStr x := by
  induction colsL with
  | nil =>
    intro seen items ops h1 h2
    exact ⟨[], by simp [suggestLoop], by simp⟩
  | cons col rest ih =>
    intro seen items ops h1 h2
    simp only [suggestLoop]
    obtain ⟨t1, ht1, hp1⟩ := mergeColVals_first (fetch col) seen items
    have hflat : ((col :: rest).map fetch).flatten.map strip
        = (fetch col).map strip ++ (rest.map fetch).flatten.map strip := by
      simp
    by_cases hb : 12 ≤ (mergeColVals seen items (fetch col)).2.length
    · rw [if_pos hb]
      refine ⟨t1, ht1, ?_⟩
      intro x hx
      obtain ⟨hne, hns, pre, post, hm, hpre⟩ := hp1 x hx
      refine ⟨hne, hns, pre, post ++ (rest.map fetch).flatten.map strip, ?_, hpre⟩
      rw [hflat, hm]
      simp
    · rw [if_neg hb]
      have hlt : (mergeColVals seen items (fetch col)).2.length < 12 := by omega
      have g1 := mergeColVals_class_tracked (fetch col) seen items h1
      obtain ⟨t2, ht2, hp2⟩ := ih _ _ (ops + 1) g1 hlt
      refine ⟨t1 ++ t2, by rw [ht2, ht1, List.append_assoc], ?_⟩
      intro x hx
      rcases List.mem_append.mp hx with hx1 | hx2
      · obtain ⟨hne, hns, pre, post, hm, hpre⟩ := hp1 x hx1
        refine ⟨hne, hns, pre, post ++ (rest.map fetch).flatten.map strip, ?_, hpre⟩
        rw [hflat, hm]
        simp
      · obtain ⟨hne, hns2, pre, post, hm, hpre⟩ := hp2 x hx2
        have hns : lowerStr x ∉ seen :=
          fun hmem => hns2 (mergeColVals_seen_mono (fetch col) seen items _ hmem)
        refine ⟨hne, hns, (fetch col).map strip ++ pre, post, ?_, ?_⟩
        · rw [hflat, hm, List.append_assoc]
        · intro y hy
          rcases List.mem_append.mp hy with hy1 | hy2
          · obtain ⟨v, hv, rfl⟩ := List.mem_map.mp hy1
            rcases mergeColVals_seen_complete (fetch col) seen items hlt v hv with hb1 | hb2
            · rw [hb1, lowerStr_empty]
              exact fun he => lowerStr_ne_empty x hne he.symm
            · exact fun he => hns2 (he ▸ hb2)
          · exact hpre y hy2

/-- The first-occurrence property carried to a suggest endpoint's items. -/
theorem suggest_items_first (items kcols : List String) (fetch : String → List String)
    (h : items = [] ∨ items = (suggestLoop fetch [] [] 1 kcols).1) :
    ∀ x ∈ items, ∃ pre post,
      (kcols.map fetch).flatten.map strip = pre ++ x :: post
      ∧ ∀ y ∈ pre, lowerStr y ≠ lowerStr x := by
  rcases h with rfl | rfl
  · intro x hx
    simp at hx
  · obtain ⟨t, ht, hp⟩ := suggestLoop_first fetch kcols [] [] 1 (by simp) (by simp)
    intro x hx
    rw [ht] at hx
    obtain ⟨hne, hns, pre, post, hm, hpre⟩ := hp x (by simpa using hx)
    exact ⟨pre, post, hm, hpre⟩

theorem suggestLoop_spec (fetch : String → List String) (colsL : List String) :
    ∀ seen items ops,
    (∀ x ∈ items, lowerStr x ∈ seen)
    → (∀ x ∈ items, strip x = x ∧ x ≠ "")
    → items.Pairwise (fun a b => lowerStr a ≠ lowerStr b)
    → items.length < 12
    → (suggestLoop fetch seen items ops colsL).1.length ≤ 12
      ∧ (∀ x ∈ (suggestLoop fetch seen items ops colsL).1, strip x = x ∧ x ≠ "")
      ∧ (suggestLoop fetch seen items ops colsL).1.Pairwise
          (fun a b => lowerStr a ≠ lowerStr b)
      ∧ ∃ t, (suggestLoop fetch seen items ops colsL).1 = items ++ t
          ∧ t.Sublist ((colsL.map fetch).flatten.map strip) := by
  induction colsL with
  | nil =>
    intro seen items ops h1 h2 h3 h4
    exact ⟨Nat.le_of_lt h4, h2, h3, [], by simp [suggestLoop], by simp⟩
  | cons col rest ih =>
    intro seen items ops h1 h2 h3 h4
    simp only [suggestLoop]
    obtain ⟨g1, g2, g3, t1, ht1, hs1⟩ := mergeColVals_spec (fetch col) seen items h1 h2 h3
    have hlen := mergeColVals_length (fetch col) seen items h4
    have hflat : ((col :: rest).map fetch).flatten.map strip
        = (fetch col).map strip ++ (rest.map fetch).flatten.map strip := by
      simp
    by_cases hb : 12 ≤ (mergeColVals seen items (fetch col)).2.length
    · rw [if_pos hb]
      refine ⟨hlen, g2, g3, t1, ht1, ?_⟩
      rw [hflat]
      exact hs1.trans (List.sublist_append_left _ _)
    · rw [if_neg hb]
      obtain ⟨k1, k2, k3, t2, ht2, hs2⟩ := ih _ _ (ops + 1) g1 g2 g3 (by omega)
      refine ⟨k1, k2, k3, t1 ++ t2, ?_, ?_⟩
      · rw [ht2, ht1, List.append_assoc]
      · rw [hflat]
        exact List.Sublist.append hs1 hs2

/-- Items of a suggest endpoint: either the empty early-exit answer or the
merge loop started on empty accumulators. -/
theorem suggest_items_spec (items : List String) (kcols : List String)
    (fetch : String → List String)
    (h : items = [] ∨ items = (suggestLoop fetch [] [] 1 kcols).1) :
    items.length ≤ 12
    ∧ (∀ x ∈ items, strip x = x ∧ x ≠ "")
    ∧ items.Pairwise (fun a b => lowerStr a ≠ lowerStr b)
    ∧ ∃ t, items = t ∧ t.Sublist ((kcols.map fetch).flatten.map strip) := by
  rcases h with rfl | rfl
  · exact ⟨by simp, by simp, by simp, [], rfl, by simp⟩
  · obtain ⟨k1, k2, k3, t, ht, hs⟩ :=
      suggestLoop_spec fetch kcols [] [] 1 (by simp) (by simp) (by simp) (by simp)
    exact ⟨k1, k2, k3, t, by simpa using ht, hs⟩

/-- C7. Both suggestion endpoints return at most 12 items; every item is a
stripped, non-blank string (so blank or whitespace-only values never
appear); items are pairwise distinct case-insensitively; the output is a
subsequence of the per-column results concatenated in column-priority
order, so ordering follows column priority and then the store's
alphabetical order within a column; and dedup is first-occurrence-wins
with the first match's casing preserved: every returned item occurs
verbatim (stripped) in that concatenated stream at a position strictly
before any other value of its case-insensitive class. -/
theorem suggestion_cap_dedup_no_blank (q : String) (cols : List String)
    (fetch : String → List String) :
    ((api_master_installbase_suggest q cols fetch).1.length ≤ 12
      ∧ (∀ x ∈ (api_master_installbase_suggest q cols fetch).1, strip x = x ∧ x ≠ "")
      ∧ (api_master_installbase_suggest q cols fetch).1.Pairwise
          (fun a b => lowerStr a ≠ lowerStr b)
      ∧ (api_master_installbase_suggest q cols fetch).1.Sublist
          (((master_suggest_key_cols cols).map fetch).flatten.map strip)
      ∧ (∀ x ∈ (api_master_installbase_suggest q cols fetch).1, ∃ pre post,
          ((master_suggest_key_cols cols).map fetch).flatten.map strip = pre ++ x :: post
          ∧ ∀ y ∈ pre, lowerStr y ≠ lowerStr x))
    ∧ ((api_report_suggest q cols fetch).1.length ≤ 12
      ∧ (∀ x ∈ (api_report_suggest q cols fetch).1, strip x = x ∧ x ≠ "")
      ∧ (api_report_suggest q cols fetch).1.Pairwise
          (fun a b => lowerStr a ≠ lowerStr b)
      ∧ (api_report_suggest q cols fetch).1.Sublist
          (((report_suggest_key_cols cols).map fetch).flatten.map strip)
      ∧ (∀ x ∈ (api_report_suggest q cols fetch).1, ∃ pre post,
          ((report_suggest_key_cols cols).map fetch).flatten.map strip = pre ++ x :: post
          ∧ ∀ y ∈ pre, lowerStr y ≠ lowerStr x)) := by
  constructor
  · have h : (api_master_installbase_suggest q cols fetch).1 = []
        ∨ (api_master_installbase_suggest q cols fetch).1
          = (suggestLoop fetch [] [] 1 (master_suggest_key_cols cols)).1 := by
      unfold api_master_installbase_suggest
      by_cases h1 : (strip q).length < 2
      · simp [h1]
      · by_cases h2 : cols = [] <;> simp [h1, h2]
    have h5 := suggest_items_first _ (master_suggest_key_cols cols) fetch h
    obtain ⟨k1, k2, k3, t, rfl, hs⟩ := suggest_items_spec _ (master_suggest_key_cols cols) fetch h
    exact ⟨k1, k2, k3, hs, h5⟩
  · have h : (api_report_suggest q cols fetch).1 = []
        ∨ (api_report_suggest q cols fetch).1
          = (suggestLoop fetch [] [] 1 (report_suggest_key_cols cols)).1 := by
      unfold api_report_suggest
      by_cases h1 : (strip q).length < 2
      · simp [h1]
      · by_cases h2 : cols = [] <;> simp [h1, h2]
    have h5 := suggest_items_first _ (report_suggest_key_cols cols) fetch h
    obtain ⟨k1, k2, k3, t, rfl, hs⟩ := suggest_items_spec _ (report_suggest_key_cols cols) fetch h
    exact ⟨k1, k2, k3, hs, h5⟩

/-! ## C8: the minimum-query-length gate

The gate exists in `api_master_installbase_suggest` and `api_report_suggest`
(app.py lines 409-410 and 734-735), but `api_installbase_customer_suggest`
(line 476, and likewise the serial variant) has no such gate: it fetches the
schema and runs its distinct-value query for any query, including one- and
zero-character queries. -/

/-- C8 counterexample. The customer-suggest endpoint called with the
1-character query `"a"` issues two storage lookups (schema fetch plus the
distinct-value query) and returns the store's non-empty item list — not an
empty list with no lookups as the claim requires of every suggestion call. -/
theorem customer_suggest_no_gate_counterexample :
    api_installbase_customer_suggest "a" ["CUSTOMER_NAME"] (fun _ => ["Acme Corp"])
      = (["Acme Corp"], 2)
    ∧ api_installbase_customer_suggest "a" ["CUSTOMER_NAME"] (fun _ => ["Acme Corp"])
      ≠ ([], 0) := by
  decide

/-- C8 amended. The master install-base suggest endpoint and the report
suggest endpoint return an empty list with zero storage lookups whenever the
trimmed query is shorter than 2 characters; the customer (and serial)
suggest endpoints carry no such gate. -/
theorem short_query_gate (q : String) (cols : List String)
    (fetch : String → List String) (h : (strip q).length < 2) :
    api_master_installbase_suggest q cols fetch = ([], 0)
    ∧ api_report_suggest q cols fetch = ([], 0) := by
  constructor
  · unfold api_master_installbase_suggest
    simp [h]
  · unfold api_report_suggest
    simp [h]

theorem short_query_gate_witness :
    (strip "a").length < 2
    ∧ (api_master_installbase_suggest "a" ["CUSTOMER_NAME"] (fun _ => ["Acme Corp"]) = ([], 0)
      ∧ api_report_suggest "a" ["CUSTOMER_NAME"] (fun _ => ["Acme Corp"]) = ([], 0)) :=
  ⟨by decide,
   short_query_gate "a" ["CUSTOMER_NAME"] (fun _ => ["Acme Corp"]) (by decide)⟩

/-! ## C1: the WSR write endpoint is insert-only -/

/-- C1 counterexample. Submitting the identical payload twice against an
initially empty table leaves TWO stored rows, not one, and the second reply
is byte-identical to the first — the fixed insert-success message; the
endpoint reports no "updated" action (its reply has no action field at
all), so the claimed second-call update path does not exist. -/
theorem wsr_double_submit_counterexample :
    (WsrWrite.api_wsr ["Zone"] wsrPayloadEx
        (WsrWrite.api_wsr ["Zone"] wsrPayloadEx []).1).1.length = 2
    ∧ (WsrWrite.api_wsr ["Zone"] wsrPayloadEx
        (WsrWrite.api_wsr ["Zone"] wsrPayloadEx []).1).2
      = (WsrWrite.api_wsr ["Zone"] wsrPayloadEx []).2
    ∧ (WsrWrite.api_wsr ["Zone"] wsrPayloadEx []).2
      = ⟨true, "WSR saved successfully!"⟩ := by
  decide

/-- C1 amended. The WSR write endpoint performs no existence check and has
no update path: whenever the schema is non-empty and at least one mapping
column resolves, the call appends exactly one freshly built row —
independent of the rows already stored — and replies with the fixed
insert-success message, so a second identical call stores a second row and
reports the same message, never "updated". -/
theorem wsr_write_insert_only (cols : List String) (payload : String → Option String)
    (db : List (List (String × WsrWrite.Cell)))
    (hc : cols ≠ []) (hm : (WsrWrite.build cols payload).insert_cols ≠ []) :
    (WsrWrite.api_wsr cols payload db).1
      = db ++ [WsrWrite.zipVals (WsrWrite.build cols payload).insert_cols
          (WsrWrite.build cols payload).insert_vals (WsrWrite.build cols payload).params]
    ∧ (WsrWrite.api_wsr cols payload db).1.length = db.length + 1
    ∧ (WsrWrite.api_wsr cols payload db).2 = ⟨true, "WSR saved successfully!"⟩ := by
  have h1 : WsrWrite.api_wsr cols payload db
      = (db ++ [WsrWrite.zipVals (WsrWrite.build cols payload).insert_cols
          (WsrWrite.build cols payload).insert_vals (WsrWrite.build cols payload).params],
         ⟨true, "WSR saved successfully!"⟩) := by
    unfold WsrWrite.api_wsr
    rw [if_neg hc]
    simp only [if_neg hm]
  rw [h1]
  exact ⟨rfl, by simp, rfl⟩

theorem wsr_write_insert_only_witness :
    (["Zone"] : List String) ≠ []
    ∧ (WsrWrite.build ["Zone"] wsrPayloadEx).insert_cols ≠ []
    ∧ ((WsrWrite.api_wsr ["Zone"] wsrPayloadEx []).1
        = [] ++ [WsrWrite.zipVals (WsrWrite.build ["Zone"] wsrPayloadEx).insert_cols
            (WsrWrite.build ["Zone"] wsrPayloadEx).insert_vals
            (WsrWrite.build ["Zone"] wsrPayloadEx).params]
      ∧ (WsrWrite.api_wsr ["Zone"] wsrPayloadEx []).1.length
          = ([] : List (List (String × WsrWrite.Cell))).length + 1
      ∧ (WsrWrite.api_wsr ["Zone"] wsrPayloadEx []).2 = ⟨true, "WSR saved successfully!"⟩) :=
  ⟨by decide, by decide,
   wsr_write_insert_only ["Zone"] wsrPayloadEx [] (by decide) (by decide)⟩

/-! ## C10: insert column uniqueness

The `seen_cols` guard ("✅✅ FIX: prevent same db column twice in insert")
deduplicates only the mapping-derived columns; the CreatedAt column is
appended afterwards without consulting `seen_cols`.  On a schema such as
`["RecreatedCallDate"]` — whose single column's normalized key contains
both `call`+`date` (resolving the call-logged-date mapping entry) and
`created` (resolving the CreatedAt lookup) — the INSERT names the same
physical column twice, contradicting the claim and the code's own comment. -/

/-- C10. The code evaluated at the failing schema `["RecreatedCallDate"]`
(empty payload): the generated INSERT names `[RecreatedCallDate]` twice —
once parameterized with one `?` and one parallel parameter, once with the
`GETUTCDATE()` literal and no parameter — so the statement's column list is
not duplicate-free. -/
theorem wsr_insert_duplicate_column :
    WsrWrite.build ["RecreatedCallDate"] (fun _ => none)
      = ⟨["[RecreatedCallDate]", "[RecreatedCallDate]"], ["?", "GETUTCDATE()"],
         [.null], ["RecreatedCallDate"]⟩
    ∧ ¬ (WsrWrite.build ["RecreatedCallDate"] (fun _ => none)).insert_cols.Nodup
    ∧ WsrWrite.insertSQL ["RecreatedCallDate"] (fun _ => none)
      = "INSERT INTO dbo.WSR ([RecreatedCallDate], [RecreatedCallDate]) VALUES (?, GETUTCDATE())" := by
  refine ⟨by decide, by decide, by decide⟩

end ServiceTeam
